import Mathlib

/-!
Verification development for the task_master enrichment backend.

The relevant Python modules are shallowly embedded:
  * `src/backend/src/lib/metadata_parsers.py`   — deadline parsing, tag scanning
  * `src/backend/src/lib/gemini_client.py`      — LLM gateway, error classification, retry
  * `src/backend/src/services/enrichment_service.py`  — confidence gating, attention flag
  * `src/backend/src/services/metadata_extraction.py` — extractor-side gating and tag union
  * `src/backend/src/services/task_service.py`  — store operations (update_enrichment, retry)
  * `src/backend/src/services/task_queue.py`    — enrich_task_background pipeline

Modelling conventions:
  * Python `str` is modelled as `List Char` (ASCII assumed for case folding and the
    character classes of the regexes involved, which the source only applies to
    ASCII task text); `String` appears only at convenience boundaries.
  * Python `float` confidence scores are modelled as `ℚ`.
  * Python exceptions are modelled with `Except`; the carried value is `str(e)`
    (for `GeminiAPIError`, the structured error record).
  * Python `datetime` is modelled as a proleptic-Gregorian record `PyDateTime`;
    all datetimes are UTC, so tzinfo is not represented.  The year range 1..9999
    of CPython (and its OverflowError at the extremes) is not modelled; none of
    the statements below depend on it.
-/

/-! ## Character and string utilities (Python semantics) -/

/-- Python `str.lower` restricted to ASCII. -/
def pyLowerChar (c : Char) : Char :=
  if 'A' ≤ c ∧ c ≤ 'Z' then Char.ofNat (c.toNat + 32) else c

def pyLower (s : List Char) : List Char := s.map pyLowerChar

/-- The whitespace characters stripped by Python `str.strip()` (ASCII part). -/
def pyIsSpace (c : Char) : Bool :=
  c = ' ' ∨ c = '\t' ∨ c = '\n' ∨ c = '\r' ∨ c = '\x0b' ∨ c = '\x0c'

def pyStrip (s : List Char) : List Char :=
  (s.dropWhile pyIsSpace).reverse.dropWhile pyIsSpace |>.reverse

/-- Python truthiness of a string: empty is falsy. -/
def pyTruthy (s : List Char) : Bool := s ≠ []

/-- Python `needle in hay` substring test. -/
def pyContains (hay needle : List Char) : Bool := decide (needle <:+: hay)

def pyIsDigit (c : Char) : Bool := '0' ≤ c ∧ c ≤ '9'

/-- Python `\w` word character (ASCII part: letters, digits, underscore). -/
def pyIsWordChar (c : Char) : Bool :=
  pyIsDigit c ∨ ('a' ≤ c ∧ c ≤ 'z') ∨ ('A' ≤ c ∧ c ≤ 'Z') ∨ c = '_'

def digitVal (c : Char) : ℕ := c.toNat - '0'.toNat

/-- `int(...)` on a nonempty digit string. -/
def digitsToNat (ds : List Char) : ℕ :=
  ds.foldl (fun acc c => acc * 10 + digitVal c) 0

/-! ## The Python `datetime` model -/

/-- Proleptic-Gregorian UTC datetime (microsecond precision), as in CPython. -/
structure PyDateTime where
  year : ℤ
  month : ℕ
  day : ℕ
  hour : ℕ
  minute : ℕ
  second : ℕ
  microsecond : ℕ
  deriving DecidableEq, Repr

def isLeapYear (y : ℤ) : Bool :=
  (y % 4 = 0 ∧ y % 100 ≠ 0) ∨ y % 400 = 0

def daysInMonth (y : ℤ) (m : ℕ) : ℕ :=
  if m = 2 then (if isLeapYear y then 29 else 28)
  else if m = 4 ∨ m = 6 ∨ m = 9 ∨ m = 11 then 30
  else 31

/-- Days since 1970-01-01 of a civil date (Hinnant's `days_from_civil`). -/
def daysFromCivil (y : ℤ) (m d : ℕ) : ℤ :=
  let yAdj : ℤ := if m ≤ 2 then y - 1 else y
  let era : ℤ := Int.fdiv yAdj 400
  let yoe : ℤ := yAdj - era * 400
  let mp : ℤ := ((m : ℤ) + 9) % 12
  let doy : ℤ := (153 * mp + 2) / 5 + (d : ℤ) - 1
  let doe : ℤ := yoe * 365 + yoe / 4 - yoe / 100 + doy
  era * 146097 + doe - 719468

/-- Civil date from days since 1970-01-01 (Hinnant's `civil_from_days`). -/
def civilFromDays (z0 : ℤ) : ℤ × ℕ × ℕ :=
  let z : ℤ := z0 + 719468
  let era : ℤ := Int.fdiv z 146097
  let doe : ℤ := z - era * 146097
  let yoe : ℤ := (doe - doe / 1460 + doe / 36524 - doe / 146096) / 365
  let y : ℤ := yoe + era * 400
  let doy : ℤ := doe - (365 * yoe + yoe / 4 - yoe / 100)
  let mp : ℤ := (5 * doy + 2) / 153
  let d : ℤ := doy - (153 * mp + 2) / 5 + 1
  let m : ℤ := if mp < 10 then mp + 3 else mp - 9
  (if m ≤ 2 then y + 1 else y, m.toNat, d.toNat)

/-- Days since the epoch of this datetime's date part. -/
def PyDateTime.toDays (t : PyDateTime) : ℤ := daysFromCivil t.year t.month t.day

def PyDateTime.withDays (t : PyDateTime) (z : ℤ) : PyDateTime :=
  let c := civilFromDays z
  { t with year := c.1, month := c.2.1, day := c.2.2 }

/-- `t + timedelta(days=n)` (also negative `n`). -/
def PyDateTime.addDays (t : PyDateTime) (n : ℤ) : PyDateTime :=
  t.withDays (t.toDays + n)

/-- `t + timedelta(hours=n)`: hour arithmetic with day carry. -/
def PyDateTime.addHours (t : PyDateTime) (n : ℤ) : PyDateTime :=
  let total : ℤ := t.toDays * 24 + (t.hour : ℤ) + n
  let z : ℤ := Int.fdiv total 24
  let h : ℤ := Int.emod total 24
  { t.withDays z with hour := h.toNat }

/-- `t + relativedelta(months=n)`: calendar months with day-of-month clamping
(dateutil semantics: Jan 31 + 1 month = Feb 28/29). -/
def PyDateTime.addMonths (t : PyDateTime) (n : ℤ) : PyDateTime :=
  let total : ℤ := (t.month : ℤ) - 1 + n
  let y : ℤ := t.year + Int.fdiv total 12
  let m : ℕ := (Int.emod total 12).toNat + 1
  { t with year := y, month := m, day := min t.day (daysInMonth y m) }

/-- Python `datetime.weekday()`: Monday = 0 .. Sunday = 6. -/
def PyDateTime.weekday (t : PyDateTime) : ℕ :=
  (Int.emod (t.toDays + 3) 7).toNat

/-- `datetime.replace(hour=..., minute=..., second=..., microsecond=...)`.
CPython validates the new fields and raises `ValueError` when out of range;
this is the partiality exploited by the counterexamples below. -/
def PyDateTime.replaceTime (t : PyDateTime) (h m s us : ℕ) :
    Except String PyDateTime :=
  if h ≥ 24 then .error "hour must be in 0..23"
  else if m ≥ 60 then .error "minute must be in 0..59"
  else if s ≥ 60 then .error "second must be in 0..59"
  else if us ≥ 1000000 then .error "microsecond must be in 0..999999"
  else .ok { t with hour := h, minute := m, second := s, microsecond := us }

/-- `replace(hour=23, minute=59, second=59)` — microsecond kept (used by the
end-of-day/week/month branches, which do not reset it). -/
def PyDateTime.endOfDayKeepUs (t : PyDateTime) : PyDateTime :=
  { t with hour := 23, minute := 59, second := 59 }

/-! ## Regex models

The source uses four concrete regexes; each is modelled by a dedicated scanner
with Python `re.search`/`re.findall` semantics (leftmost match, greedy with
backtracking) over ASCII text. -/

inductive Meridiem | am | pm
  deriving DecidableEq, Repr

/-- The optional `(am|pm)` group (case-insensitive), matched at the head. -/
def amPmAt (s : List Char) : Option Meridiem :=
  match s with
  | a :: b :: _ =>
    if pyLowerChar a = 'a' ∧ pyLowerChar b = 'm' then some .am
    else if pyLowerChar a = 'p' ∧ pyLowerChar b = 'm' then some .pm
    else none
  | _ => none

/-- Match of `(\d{1,2}):(\d{2})\s*(am|pm)?` anchored at the head: greedy
two-digit hour first, backtracking to one digit. Returns (hour, minute, am/pm). -/
def matchTime1At (s : List Char) : Option (ℕ × ℕ × Option Meridiem) :=
  match s with
  | d1 :: rest1 =>
    if pyIsDigit d1 then
      (match rest1 with
       | d2 :: ':' :: m1 :: m2 :: rest2 =>
         if pyIsDigit d2 ∧ pyIsDigit m1 ∧ pyIsDigit m2 then
           some (digitVal d1 * 10 + digitVal d2, digitVal m1 * 10 + digitVal m2,
                 amPmAt (rest2.dropWhile pyIsSpace))
         else none
       | _ => none).orElse (fun _ =>
        match rest1 with
        | ':' :: m1 :: m2 :: rest2 =>
          if pyIsDigit m1 ∧ pyIsDigit m2 then
            some (digitVal d1, digitVal m1 * 10 + digitVal m2,
                  amPmAt (rest2.dropWhile pyIsSpace))
          else none
        | _ => none)
    else none
  | [] => none

/-- `re.search` of the hour:minute pattern: leftmost position that matches. -/
def findTime1 : List Char → Option (ℕ × ℕ × Option Meridiem)
  | [] => none
  | c :: rest =>
    match matchTime1At (c :: rest) with
    | some r => some r
    | none => findTime1 rest

/-- Match of `(\d{1,2})\s*(am|pm)` anchored at the head. Returns (hour, am/pm). -/
def matchTime2At (s : List Char) : Option (ℕ × Meridiem) :=
  match s with
  | d1 :: rest1 =>
    if pyIsDigit d1 then
      (match rest1 with
       | d2 :: rest2 =>
         if pyIsDigit d2 then
           (amPmAt (rest2.dropWhile pyIsSpace)).map
             (fun mer => (digitVal d1 * 10 + digitVal d2, mer))
         else none
       | [] => none).orElse (fun _ =>
        (amPmAt (rest1.dropWhile pyIsSpace)).map (fun mer => (digitVal d1, mer)))
    else none
  | [] => none

/-- `re.search` of the bare hour-with-meridiem pattern. -/
def findTime2 : List Char → Option (ℕ × Meridiem)
  | [] => none
  | c :: rest =>
    match matchTime2At (c :: rest) with
    | some r => some r
    | none => findTime2 rest

inductive TimeUnit | day | week | month | hour
  deriving DecidableEq, Repr

/-- The `(day|week|month|hour)s?` group matched at the head (the optional `s`
consumes nothing that matters). -/
def unitAt (s : List Char) : Option TimeUnit :=
  if decide ("day".data <+: s) then some .day
  else if decide ("week".data <+: s) then some .week
  else if decide ("month".data <+: s) then some .month
  else if decide ("hour".data <+: s) then some .hour
  else none

/-- Match of `in (\d+) (day|week|month|hour)s?` anchored at the head. -/
def matchInAt (s : List Char) : Option (ℕ × TimeUnit) :=
  match s with
  | 'i' :: 'n' :: ' ' :: rest =>
    let ds := rest.takeWhile pyIsDigit
    if ds.isEmpty then none
    else
      match rest.drop ds.length with
      | ' ' :: rest2 => (unitAt rest2).map (fun u => (digitsToNat ds, u))
      | _ => none
  | _ => none

/-- `re.search` of the `in N units` pattern. -/
def findIn : List Char → Option (ℕ × TimeUnit)
  | [] => none
  | c :: rest =>
    match matchInAt (c :: rest) with
    | some r => some r
    | none => findIn rest

/-- One-pass scanner equivalent to the regex engine's traversal for
`#(\w+)`: the state is `none` outside a candidate match and `some w` (reversed
word collected so far) right after a `#`; a maximal nonempty word run is
emitted when it ends. Written as a single structural recursion so that it
evaluates inside the kernel. -/
def findHashtagsAux : List Char → Option (List Char) → List (List Char)
  | [], acc =>
    match acc with
    | some w => if w.isEmpty then [] else [w.reverse]
    | none => []
  | c :: rest, some w =>
    if pyIsWordChar c then findHashtagsAux rest (some (c :: w))
    else
      (if w.isEmpty then [] else [w.reverse]) ++
        (if c = '#' then findHashtagsAux rest (some [])
         else findHashtagsAux rest none)
  | c :: rest, none =>
    if c = '#' then findHashtagsAux rest (some [])
    else findHashtagsAux rest none

/-- `re.findall(r'#(\w+)', text)`: all non-overlapping hashtag words, left to
right, each the maximal word-character run after its `#`. -/
def findHashtags (s : List Char) : List (List Char) :=
  findHashtagsAux s none

/-! ## `src/backend/src/lib/metadata_parsers.py` -/

/-- `datetime.replace(hour=..., minute=..., second=..., microsecond=0)` after a
matched time-of-day pattern, with the source's 12-hour normalization; falls back
to end-of-day 23:59:59 (microsecond 0) when no time pattern is present
(`_apply_time_if_present`). -/
def apply_time_if_present (text : List Char) (base_date : PyDateTime) :
    Except String PyDateTime :=
  match findTime1 text with
  | some (h, m, mer) =>
    let h2 := if mer = some .pm ∧ h < 12 then h + 12
              else if mer = some .am ∧ h = 12 then 0
              else h
    base_date.replaceTime h2 m 0 0
  | none =>
  match findTime2 text with
  | some (h, mer) =>
    let h2 := if mer = .pm ∧ h < 12 then h + 12
              else if mer = .am ∧ h = 12 then 0
              else h
    base_date.replaceTime h2 0 0 0
  | none => base_date.replaceTime 23 59 59 0

def weekdayNames : List (List Char) :=
  ["monday".data, "tuesday".data, "wednesday".data, "thursday".data,
   "friday".data, "saturday".data, "sunday".data]

/-- First weekday name (by table order Monday..Sunday) contained in the text. -/
def firstWeekday (text : List Char) : Option ℕ :=
  (List.range 7).find? (fun i => pyContains text (weekdayNames.getD i []))

/-- `_parse_relative_date(text, reference_time)`: the ordered relative-keyword
table. `text` is already lowercased and stripped by the caller. An `.error` is
a propagated Python exception (from `datetime.replace` validation). -/
def parse_relative_date (text : List Char) (reference_time : PyDateTime) :
    Except String (Option PyDateTime) :=
  if text = "today".data ∨ text = "now".data then .ok (some reference_time)
  else if pyContains text "tomorrow".data then
    (apply_time_if_present text (reference_time.addDays 1)).map some
  else if pyContains text "yesterday".data then
    (apply_time_if_present text (reference_time.addDays (-1))).map some
  else if pyContains text "next week".data ∨ pyContains text "this week".data then
    let days_ahead : ℤ := if pyContains text "next week".data then 7 else 0
    (apply_time_if_present text (reference_time.addDays days_ahead)).map some
  else if pyContains text "next month".data then
    (apply_time_if_present text (reference_time.addMonths 1)).map some
  else
  match findIn text with
  | some (count, unit) =>
    let base := match unit with
      | .day => reference_time.addDays count
      | .week => reference_time.addDays (7 * count)
      | .month => reference_time.addMonths count
      | .hour => reference_time.addHours count
    (apply_time_if_present text base).map some
  | none =>
  match firstWeekday text with
  | some i =>
    let da0 : ℤ := Int.emod ((i : ℤ) - reference_time.weekday) 7
    let da : ℤ := if da0 = 0 ∧ pyContains text "next".data then 7 else da0
    (apply_time_if_present text (reference_time.addDays da)).map some
  | none =>
  if pyContains text "end of day".data ∨ pyContains text "eod".data then
    .ok (some reference_time.endOfDayKeepUs)
  else if pyContains text "end of week".data ∨ pyContains text "eow".data then
    let days_to_friday : ℤ := Int.emod (4 - (reference_time.weekday : ℤ)) 7
    .ok (some ((reference_time.addDays days_to_friday).endOfDayKeepUs))
  else if pyContains text "end of month".data ∨ pyContains text "eom".data then
    let next_month := reference_time.addMonths 1
    let last_day := ({ next_month with day := 1 } : PyDateTime).addDays (-1)
    .ok (some last_day.endOfDayKeepUs)
  else .ok none

/-- The type of the dateutil fallback (step 5 of the parser): models the block
`try: dateutil_parser.parse(deadline_text, fuzzy=True, default=reference_time)
except (ValueError, TypeError, OverflowError): return None` as one opaque call,
since dateutil is an external library outside this repository. A faithful
instance therefore never returns `.error`. -/
def DateutilFallback : Type :=
  List Char → PyDateTime → Except String (Option PyDateTime)

/-- `parse_deadline(deadline_text, reference_time)`. The `None` default of
`reference_time` (wall clock) and tz-awareness normalization are outside the
model; claims quantify over explicit UTC reference instants. The fallback is
called on the original (unlowered) text, as in the source. -/
def parse_deadline (fallback : DateutilFallback)
    (deadline_text : Option (List Char)) (reference_time : PyDateTime) :
    Except String (Option PyDateTime) :=
  match deadline_text with
  | none => .ok none
  | some dt =>
    if ¬ pyTruthy dt ∨ ¬ pyTruthy (pyStrip dt) then .ok none
    else
      let text := pyStrip (pyLower dt)
      match parse_relative_date text reference_time with
      | .error e => .error e
      | .ok (some result) => .ok (some result)
      | .ok none => fallback dt reference_time

/-- First-seen-order case-insensitive dedup loop of `extract_tags`. -/
def dedupLowerTags : List (List Char) → List (List Char) → List (List Char)
  | [], _ => []
  | t :: rest, seen =>
    let tl := pyLower t
    if seen.contains tl then dedupLowerTags rest seen
    else tl :: dedupLowerTags rest (tl :: seen)

/-- `extract_tags(text)`: hashtag words of the raw text, lowercased,
deduplicated case-insensitively, first-seen order preserved. -/
def extract_tags (text : List Char) : List (List Char) :=
  if ¬ pyTruthy text then []
  else dedupLowerTags (findHashtags text) []

/-! ## `src/backend/src/models/task_metadata.py` -/

/-- `MetadataExtractionResponse` (pydantic): extracted fields with per-field
confidence scores. Confidences (Python floats in [0,1]) are modelled as `ℚ`. -/
structure MetadataExtractionResponse where
  project : Option String
  project_confidence : ℚ
  persons : List String
  persons_confidence : ℚ
  deadline : Option String
  deadline_confidence : ℚ
  task_type : Option String
  task_type_confidence : ℚ
  priority : Option String
  priority_confidence : ℚ
  effort_estimate : Option ℤ
  effort_confidence : ℚ
  dependencies : List String
  dependencies_confidence : ℚ
  tags : List String
  tags_confidence : ℚ
  chain_of_thought : Option String
  deriving DecidableEq, Repr

/-- Python truthiness of an optional string (`not x`): `None` and `""` are falsy. -/
def pyFalsyOptStr : Option String → Bool
  | none => true
  | some s => s = ""

/-! ## `src/backend/src/services/enrichment_service.py`
(gating, attention flag, deadline helper) -/

/-- `self.confidence_threshold = 0.7` set in `EnrichmentService.__init__`. -/
def EnrichmentService.confidence_threshold : ℚ := 7/10

/-- `EnrichmentService.should_populate_field(confidence)`. -/
def EnrichmentService.should_populate_field (confidence : ℚ) : Bool :=
  confidence ≥ EnrichmentService.confidence_threshold

/-- `EnrichmentService.requires_attention(response)`: true iff the project is
missing/empty or its confidence is below the threshold. -/
def EnrichmentService.requires_attention (response : MetadataExtractionResponse) : Bool :=
  if pyFalsyOptStr response.project ∨
     response.project_confidence < EnrichmentService.confidence_threshold
  then true else false

/-- `EnrichmentService.parse_deadline_from_text(deadline_text, reference_time)`. -/
def EnrichmentService.parse_deadline_from_text (fallback : DateutilFallback)
    (deadline_text : Option String) (reference_time : PyDateTime) :
    Except String (Option PyDateTime) :=
  match deadline_text with
  | none => .ok none
  | some d =>
    if ¬ pyTruthy d.data then .ok none
    else parse_deadline fallback (some d.data) reference_time

/-! ## `src/backend/src/services/metadata_extraction.py`
(extractor-side gating/attention and the tag union of `_post_process_extraction`) -/

/-- `MetadataExtractor.CONFIDENCE_THRESHOLD = 0.7`. -/
def MetadataExtractor.CONFIDENCE_THRESHOLD : ℚ := 7/10

/-- `MetadataExtractor.should_populate_field(confidence)`. -/
def MetadataExtractor.should_populate_field (confidence : ℚ) : Bool :=
  confidence ≥ MetadataExtractor.CONFIDENCE_THRESHOLD

/-- `MetadataExtractor.requires_attention(response)`: true iff any of the four
confidences {project, persons, task_type, priority} is below the threshold. -/
def MetadataExtractor.requires_attention (response : MetadataExtractionResponse) : Bool :=
  [response.project_confidence, response.persons_confidence,
   response.task_type_confidence, response.priority_confidence].any
    (fun conf => conf < MetadataExtractor.CONFIDENCE_THRESHOLD)

/-- First-occurrence deduplication by exact string equality. -/
def dedupFirstSeen : List String → List String → List String
  | [], _ => []
  | t :: rest, seen =>
    if seen.contains t then dedupFirstSeen rest seen
    else t :: dedupFirstSeen rest (t :: seen)

/-- Model of Python `list(set(l))` for strings. CPython's iteration order over a
set of strings is hash-dependent and unspecified; only the element membership of
the result is modelled faithfully. The result is represented by the
first-occurrence deduplication (exact string equality, as in a Python set) of
the input; theorems about it only use order-insensitive facts. -/
def pySetList (l : List String) : List String := dedupFirstSeen l []

/-- Specification-side definition (from the spec's words, for comparison with
the source's loop): the canonical first-seen deduplication — fold left over the
already-lowercased scanned tokens, appending each token the first time it is
seen. Its output is, by construction, in first-seen order. -/
def firstSeenDedup (l : List (List Char)) : List (List Char) :=
  l.foldl (fun a x => if a.contains x then a else a ++ [x]) []

/-- The tag union of `_post_process_extraction`:
`all_tags = list(set(extract_tags(original_text) + llm_tags))`. -/
def MetadataExtractor.all_tags (original_text : String) (llm_tags : List String) :
    List String :=
  pySetList ((extract_tags original_text.data).map List.asString ++ llm_tags)

/-! ## `src/backend/src/lib/gemini_client.py` -/

/-- `GeminiAPIError`: classified gateway failure. -/
structure GeminiAPIError where
  message : String
  status_code : Option ℕ
  error_code : Option String
  retry_after : Option ℕ
  is_retryable : Bool
  deriving DecidableEq, Repr

/-- Python exceptions surfaced by the gateway functions. -/
inductive PyExc where
  | valueError (msg : String)
  | gemini (e : GeminiAPIError)
  deriving DecidableEq, Repr

/-- `GeminiClient._handle_api_error(error)`: classification by substring search
on `str(error).lower()`. -/
def handle_api_error (error_str : String) : GeminiAPIError :=
  let es := pyLower error_str.data
  if pyContains es "auth".data ∨ pyContains es "unauthorized".data ∨
     pyContains es "api key".data then
    { message := "Gemini API authentication failed. Please check your API key.",
      status_code := some 401, error_code := none, retry_after := none,
      is_retryable := false }
  else if pyContains es "rate limit".data ∨ pyContains es "quota".data then
    { message := "Rate limit exceeded. Task will retry automatically.",
      status_code := some 429, error_code := none, retry_after := some 60,
      is_retryable := true }
  else if pyContains es "server error".data ∨ pyContains es "503".data ∨
          pyContains es "unavailable".data then
    { message := "Gemini service temporarily unavailable. Retrying...",
      status_code := some (if pyContains es "500".data then 500 else 503),
      error_code := none, retry_after := none, is_retryable := true }
  else if pyContains es "timeout".data then
    { message := "Gemini API timeout. Task will retry.",
      status_code := none, error_code := none, retry_after := none,
      is_retryable := true }
  else
    { message := "Enrichment failed: " ++ error_str,
      status_code := none, error_code := none, retry_after := none,
      is_retryable := false }

/-- `GeminiClient.enrich_task(text)`. `providerText` is the outcome of the one
`generate_content` call this method makes: `.error s` models the provider
raising an exception with `str(e) = s`, `.ok t` models `response.text = t`
(`none` for a missing text). The method is NOT wrapped by
`_retry_with_exponential_backoff` in the source, so it performs exactly this
single provider call. -/
def GeminiClient.enrich_task (text : String)
    (providerText : Except String (Option String)) : Except PyExc String :=
  if ¬ pyTruthy text.data ∨ ¬ pyTruthy (pyStrip text.data) then
    .error (.valueError "Input text cannot be empty")
  else
    match providerText with
    | .error e => .error (.gemini (handle_api_error e))
    | .ok t =>
      let enriched_text := t.getD ""
      if ¬ pyTruthy enriched_text.data then
        .error (.gemini (handle_api_error "Gemini returned empty response"))
      else .ok (pyStrip enriched_text.data).asString

/-- The loop body of `_retry_with_exponential_backoff`'s wrapper. `calls k` is
the outcome of the (k+1)-th invocation of the wrapped function; `budget` is the
number of retries still allowed (`max_retries - attempts`), so `budget = 0`
exactly when `attempts >= max_retries`. Returns the surfaced outcome and the
list of slept delays. -/
def retryGo {α : Type} (calls : ℕ → Except GeminiAPIError α) (base_delay : ℚ) :
    ℕ → ℕ → List ℚ → Except GeminiAPIError α × List ℚ
  | budget, attempts, delays =>
    match calls attempts with
    | .ok a => (.ok a, delays.reverse)
    | .error e =>
      match budget with
      | 0 => (.error e, delays.reverse)
      | b + 1 =>
        if ¬ e.is_retryable then (.error e, delays.reverse)
        else
          let d0 : ℚ := base_delay * 2 ^ attempts
          let d : ℚ := match e.retry_after with
            | some r => if r = 0 then d0 else max d0 (r : ℚ)
            | none => d0
          retryGo calls base_delay b (attempts + 1) (d :: delays)

/-- `_retry_with_exponential_backoff(max_retries, base_delay)` applied to a
function whose successive invocations yield `calls 0`, `calls 1`, .... Defined
in the source but applied to no function. -/
def retry_with_exponential_backoff {α : Type} (max_retries : ℕ) (base_delay : ℚ)
    (calls : ℕ → Except GeminiAPIError α) : Except GeminiAPIError α × List ℚ :=
  retryGo calls base_delay max_retries 0 []

/-- `EnrichmentService.enrich(user_input)`: wraps the gateway call, re-raising
any failure as `Exception("Enrichment failed: ...")` and stripping the result. -/
def EnrichmentService.enrich (user_input : String)
    (providerText : Except String (Option String)) : Except String String :=
  match GeminiClient.enrich_task user_input providerText with
  | .ok t => .ok (pyStrip t.data).asString
  | .error (.gemini e) => .error ("Enrichment failed: " ++ e.message)
  | .error (.valueError m) => .error ("Enrichment failed: " ++ m)

/-! ## Store model (`src/backend/src/models`, `task_service.py`)

`Task` (as `TaskRow`, since `Task` is taken by Lean core) and `Workbench` keep exactly the columns the embedded operations read or
write; columns untouched by them (`status`, `created_at`, TaskRow's legacy
`enrichment_status`/`error_message`/`metadata_suggestions` columns, Workbench's
`id`/`created_at`/`moved_to_todos_at`) are omitted. `json.dumps` renderings are
modelled loosely (no escaping): no claim inspects those strings' contents. -/

inductive EnrichmentStatus
  | pending | processing | completed | failed
  deriving DecidableEq, Repr

structure TaskRow where
  id : String
  user_input : String
  enriched_text : Option String
  updated_at : PyDateTime
  project : Option String
  persons : Option String
  task_type : Option String
  priority : Option String
  deadline_text : Option String
  deadline_parsed : Option PyDateTime
  effort_estimate : Option ℤ
  dependencies : Option String
  tags : Option String
  extracted_at : Option PyDateTime
  requires_attention : Bool
  deriving DecidableEq, Repr

structure Workbench where
  task_id : String
  enrichment_status : EnrichmentStatus
  error_message : Option String
  metadata_suggestions : Option String
  updated_at : PyDateTime
  deriving DecidableEq, Repr

/-- The task/workbench rows of the database, keyed by task id. -/
structure Store where
  tasks : List TaskRow
  workbenches : List Workbench
  deriving DecidableEq, Repr

def Store.findTask (s : Store) (task_id : String) : Option TaskRow :=
  s.tasks.find? (fun t => t.id == task_id)

def Store.findWorkbench (s : Store) (task_id : String) : Option Workbench :=
  s.workbenches.find? (fun w => w.task_id == task_id)

def Store.setTask (s : Store) (t : TaskRow) : Store :=
  { s with tasks := s.tasks.map (fun u => if u.id == t.id then t else u) }

def Store.setWorkbench (s : Store) (w : Workbench) : Store :=
  { s with workbenches :=
      s.workbenches.map (fun u => if u.task_id == w.task_id then w else u) }

/-- `TaskService.get_by_id`: raises `Exception(f"Task {task_id} not found")`. -/
def TaskService.get_by_id (s : Store) (task_id : String) : Except String TaskRow :=
  match s.findTask task_id with
  | some t => .ok t
  | none => .error ("Task " ++ task_id ++ " not found")

/-- `TaskService.get_workbench_entry`. -/
def TaskService.get_workbench_entry (s : Store) (task_id : String) :
    Except String Workbench :=
  match s.findWorkbench task_id with
  | some w => .ok w
  | none => .error ("Workbench entry for task " ++ task_id ++ " not found")

/-- `TaskService.update_enrichment(task_id, status, enriched_text=None,
error_message=None)`. The Python keyword defaults are passed explicitly at
every call site of the model. The two `datetime.now` calls are modelled as the
single instant `now`. Returns the committed store and the updated rows. -/
def TaskService.update_enrichment (s : Store) (now : PyDateTime)
    (task_id : String) (status : EnrichmentStatus)
    (enriched_text : Option String) (error_message : Option String) :
    Except String (Store × TaskRow × Workbench) := do
  let task ← TaskService.get_by_id s task_id
  let workbench ← TaskService.get_workbench_entry s task_id
  let task' := { task with enriched_text := enriched_text, updated_at := now }
  let workbench' := { workbench with
    enrichment_status := status, error_message := error_message,
    updated_at := now }
  .ok ((s.setTask task').setWorkbench workbench', task', workbench')

/-- `TaskService.retry_task(task_id)`: resets the workbench status to pending
and clears the error message; the task row only gets a fresh `updated_at`. -/
def TaskService.retry_task (s : Store) (now : PyDateTime) (task_id : String) :
    Except String (Store × TaskRow × Workbench) := do
  let task ← TaskService.get_by_id s task_id
  let workbench ← TaskService.get_workbench_entry s task_id
  let workbench' := { workbench with
    enrichment_status := .pending, error_message := none, updated_at := now }
  let task' := { task with updated_at := now }
  .ok ((s.setTask task').setWorkbench workbench', task', workbench')

/-- Loose model of `json.dumps` on a list of strings. -/
def jsonListString (l : List String) : String :=
  "[" ++ String.intercalate ", " (l.map (fun s => "\"" ++ s ++ "\"")) ++ "]"

def jsonOptString : Option String → String
  | none => "null"
  | some s => "\"" ++ s ++ "\""

/-- Loose model of `EnrichmentService.serialize_metadata_suggestions`
(`json.dumps` of the full response dict); the exact JSON text is not
load-bearing for any claim. -/
def EnrichmentService.serialize_metadata_suggestions
    (r : MetadataExtractionResponse) : String :=
  String.intercalate ", "
    [jsonOptString r.project, toString r.project_confidence,
     jsonListString r.persons, toString r.persons_confidence,
     jsonOptString r.deadline, toString r.deadline_confidence,
     jsonOptString r.task_type, toString r.task_type_confidence,
     jsonOptString r.priority, toString r.priority_confidence,
     toString r.effort_estimate, toString r.effort_confidence,
     jsonListString r.dependencies, toString r.dependencies_confidence,
     jsonListString r.tags, toString r.tags_confidence,
     jsonOptString r.chain_of_thought]

/-! ## `src/backend/src/services/task_queue.py` — the pipeline -/

/-- The confidence-gated field writes of `enrich_task_background` preceding the
deadline block (project, persons, task_type, priority — source order). -/
def populate_before_deadline (task0 : TaskRow)
    (m : MetadataExtractionResponse) : TaskRow :=
  let task := task0
  let task :=
    if EnrichmentService.should_populate_field m.project_confidence
    then { task with project := m.project } else task
  let task :=
    if EnrichmentService.should_populate_field m.persons_confidence
    then { task with persons := some (jsonListString m.persons) } else task
  let task :=
    if EnrichmentService.should_populate_field m.task_type_confidence
    then { task with task_type := m.task_type } else task
  if EnrichmentService.should_populate_field m.priority_confidence
  then { task with priority := m.priority } else task

/-- The field writes of `enrich_task_background` following the deadline block
(effort_estimate, dependencies, tags, then extracted_at and
requires_attention — source order). -/
def populate_after_deadline (task0 : TaskRow) (m : MetadataExtractionResponse)
    (now : PyDateTime) : TaskRow :=
  let task := task0
  let task :=
    if EnrichmentService.should_populate_field m.effort_confidence
    then { task with effort_estimate := m.effort_estimate } else task
  let task :=
    if EnrichmentService.should_populate_field m.dependencies_confidence
    then { task with dependencies := some (jsonListString m.dependencies) }
    else task
  let task :=
    if EnrichmentService.should_populate_field m.tags_confidence
    then { task with tags := some (jsonListString m.tags) } else task
  { task with
    extracted_at := some now,
    requires_attention := EnrichmentService.requires_attention m }

/-- `enrich_task_background(task_id, db, enrichment_service)`.

`enrichResult` / `extractResult` are the outcomes of the two awaited
`EnrichmentService` calls (their error strings are the `str(e)` of the raised
exception, already wrapped as `Exception("Enrichment failed: ...")` /
`Exception("Metadata extraction failed: ...")` by the service). The several
`datetime.now(timezone.utc)` calls in one run are modelled as the single
instant `now`.

SQLAlchemy session semantics captured by the model: the `task`/`workbench`
objects returned by `update_enrichment` are the same session rows as those
fetched at the start (identity map), and a raise inside the `try` leaves the
session's pending mutations in place — the failure handler's own
`update_enrichment` commits them together with the failed status. The body
therefore threads the session state and carries it on the error path. An
`.error` result means the exception escaped `enrich_task_background`. -/
def enrich_task_background (fallback : DateutilFallback) (now : PyDateTime)
    (s : Store) (task_id : String)
    (enrichResult : Except String String)
    (extractResult : Except String MetadataExtractionResponse) :
    Except String Store :=
  let body : Except (String × Store) Store := do
    let _task ← (TaskService.get_by_id s task_id).mapError (fun m => (m, s))
    let _workbench ← (TaskService.get_workbench_entry s task_id).mapError
      (fun m => (m, s))
    let (s1, task, workbench) ←
      (TaskService.update_enrichment s now task_id .processing none none).mapError
        (fun m => (m, s))
    let enriched_text ← enrichResult.mapError (fun m => (m, s1))
    let metadata_response ← extractResult.mapError (fun m => (m, s1))
    let suggestions :=
      EnrichmentService.serialize_metadata_suggestions metadata_response
    let workbench := { workbench with metadata_suggestions := some suggestions }
    let task := populate_before_deadline task metadata_response
    let task ←
      if EnrichmentService.should_populate_field metadata_response.deadline_confidence
      then do
        let task := { task with deadline_text := metadata_response.deadline }
        if ¬ pyFalsyOptStr metadata_response.deadline then do
          let parsed_deadline ←
            (EnrichmentService.parse_deadline_from_text fallback
                metadata_response.deadline now).mapError
              (fun m => (m, (s1.setTask task).setWorkbench workbench))
          pure { task with deadline_parsed := parsed_deadline }
        else pure task
      else pure task
    let task := populate_after_deadline task metadata_response now
    let s2 := (s1.setTask task).setWorkbench workbench
    let (s3, _, _) ←
      (TaskService.update_enrichment s2 now task_id .completed (some enriched_text)
          none).mapError (fun m => (m, s2))
    pure s3
  match body with
  | .ok sFinal => .ok sFinal
  | .error (error_message, sAtRaise) =>
    match TaskService.update_enrichment sAtRaise now task_id .failed none
        (some error_message) with
    | .ok (sFinal, _, _) => .ok sFinal
    | .error e => .error e

/-! ## Auxiliary instances and concrete sample data -/

instance {ε α : Type} [DecidableEq ε] [DecidableEq α] : DecidableEq (Except ε α) :=
  fun a b =>
    match a, b with
    | .ok x, .ok y =>
      if h : x = y then isTrue (by rw [h]) else isFalse (by simp [h])
    | .error x, .error y =>
      if h : x = y then isTrue (by rw [h]) else isFalse (by simp [h])
    | .ok _, .error _ => isFalse (by simp)
    | .error _, .ok _ => isFalse (by simp)

/-! ## Concrete sample data for witnesses and counterexamples -/

/-- Fallback used in concrete evaluations; the dateutil call is not reached in
any of them. -/
def fallbackNone : DateutilFallback := fun _ _ => .ok none

def sampleDate : PyDateTime := ⟨2025, 1, 1, 0, 0, 0, 0⟩

def sampleNow : PyDateTime := ⟨2025, 6, 1, 12, 0, 0, 0⟩

/-- A task whose earlier enrichment run completed: enriched text and several
metadata fields are populated. -/
def sampleTask : TaskRow :=
  { id := "t1", user_input := "call mom", enriched_text := some "old enriched",
    updated_at := sampleDate, project := some "ProjOld",
    persons := some "[\"Ann\"]", task_type := some "call",
    priority := some "high", deadline_text := some "friday",
    deadline_parsed := some sampleDate, effort_estimate := some 30,
    dependencies := some "[]", tags := some "[\"x\"]",
    extracted_at := some sampleDate, requires_attention := true }

def sampleWorkbench : Workbench :=
  { task_id := "t1", enrichment_status := .completed, error_message := some "old error",
    metadata_suggestions := some "old suggestions", updated_at := sampleDate }

def sampleStore : Store := ⟨[sampleTask], [sampleWorkbench]⟩

def c10ref : PyDateTime := ⟨2025, 10, 12, 8, 30, 15, 123⟩

/-- The classified 429 error produced by `_handle_api_error` for a rate-limit
failure. -/
def rateLimitError : GeminiAPIError :=
  { message := "Rate limit exceeded. Task will retry automatically."
    status_code := some 429
    error_code := none
    retry_after := some 60
    is_retryable := true }

def c6resp : MetadataExtractionResponse :=
  { project := some "ProjX", project_confidence := 1
    persons := [], persons_confidence := 0
    deadline := none, deadline_confidence := 1
    task_type := none, task_type_confidence := 1
    priority := none, priority_confidence := 1
    effort_estimate := none, effort_confidence := 1
    dependencies := [], dependencies_confidence := 1
    tags := [], tags_confidence := 1
    chain_of_thought := none }

def emptyStore : Store := ⟨[], []⟩

def c9task : TaskRow :=
  { sampleTask with enriched_text := none, updated_at := sampleNow }

def c9wb : Workbench :=
  { sampleWorkbench with
      enrichment_status := .failed
      error_message := none
      updated_at := sampleNow }

def c9store : Store := (sampleStore.setTask c9task).setWorkbench c9wb

/-! ## Supporting lemmas about the store -/

/-- General effect of a keyed replacement on the first keyed lookup. -/
lemma find_map_set_cases {α : Type} (idOf : α → String) (l : List α)
    (id : String) (a b : α) (h : l.find? (fun x => idOf x == id) = some a) :
    (l.map (fun u => if idOf u == idOf b then b else u)).find?
      (fun x => idOf x == id) = some (if idOf b = idOf a then b else a) := by
  induction l with
  | nil => simp at h
  | cons x xs ih =>
    by_cases hpx : (idOf x == id) = true
    · rw [List.find?_cons_of_pos (p := fun y => idOf y == id) _ hpx] at h
      injection h with h; subst h
      have hxid : idOf x = id := by simpa using hpx
      by_cases hxb : idOf x = idOf b
      · simp only [List.map_cons, if_pos (by simp [hxb] : (idOf x == idOf b) = true)]
        rw [List.find?_cons_of_pos (p := fun y => idOf y == id) _
          (by simp [← hxb, hxid])]
        rw [if_pos hxb.symm]
      · simp only [List.map_cons, if_neg (by simp [hxb] : ¬ (idOf x == idOf b) = true)]
        rw [List.find?_cons_of_pos (p := fun y => idOf y == id) _ hpx]
        rw [if_neg (fun hh => hxb hh.symm)]
    · rw [List.find?_cons_of_neg (p := fun y => idOf y == id) _ hpx] at h
      have ha : idOf a = id := by
        have hmem := List.find?_some h
        simpa using hmem
      by_cases hxb : idOf x = idOf b
      · simp only [List.map_cons, if_pos (by simp [hxb] : (idOf x == idOf b) = true)]
        rw [List.find?_cons_of_neg (p := fun y => idOf y == id) _
          (by simpa [← hxb] using hpx)]
        exact ih h
      · simp only [List.map_cons, if_neg (by simp [hxb] : ¬ (idOf x == idOf b) = true)]
        rw [List.find?_cons_of_neg (p := fun y => idOf y == id) _ hpx]
        exact ih h

lemma findTask_setTask_cases (s : Store) (id : String) (t0 t' : TaskRow)
    (h : s.findTask id = some t0) :
    (s.setTask t').findTask id = some (if t'.id = t0.id then t' else t0) :=
  find_map_set_cases TaskRow.id s.tasks id t0 t' h

lemma findWorkbench_setWorkbench_cases (s : Store) (id : String)
    (w0 w' : Workbench) (h : s.findWorkbench id = some w0) :
    (s.setWorkbench w').findWorkbench id =
      some (if w'.task_id = w0.task_id then w' else w0) :=
  find_map_set_cases Workbench.task_id s.workbenches id w0 w' h

lemma findTask_setTask (s : Store) (id : String) (t0 t' : TaskRow)
    (h : s.findTask id = some t0) (hid : t'.id = t0.id) :
    (s.setTask t').findTask id = some t' := by
  rw [findTask_setTask_cases s id t0 t' h, if_pos hid]

lemma findWorkbench_setWorkbench (s : Store) (id : String) (w0 w' : Workbench)
    (h : s.findWorkbench id = some w0) (hid : w'.task_id = w0.task_id) :
    (s.setWorkbench w').findWorkbench id = some w' := by
  rw [findWorkbench_setWorkbench_cases s id w0 w' h, if_pos hid]

lemma findTask_setWorkbench (s : Store) (id : String) (w : Workbench) :
    (s.setWorkbench w).findTask id = s.findTask id := rfl

lemma findWorkbench_setTask (s : Store) (id : String) (t : TaskRow) :
    (s.setTask t).findWorkbench id = s.findWorkbench id := rfl

/-- Explicit form of a successful `update_enrichment`. -/
lemma update_enrichment_found (s : Store) (now : PyDateTime) (id : String)
    (st : EnrichmentStatus) (et em : Option String) (t0 : TaskRow) (w0 : Workbench)
    (ht : s.findTask id = some t0) (hw : s.findWorkbench id = some w0) :
    TaskService.update_enrichment s now id st et em =
      .ok ((s.setTask { t0 with enriched_text := et, updated_at := now }).setWorkbench
             { w0 with enrichment_status := st, error_message := em, updated_at := now },
           { t0 with enriched_text := et, updated_at := now },
           { w0 with enrichment_status := st, error_message := em, updated_at := now }) := by
  simp [TaskService.update_enrichment, TaskService.get_by_id,
    TaskService.get_workbench_entry, ht, hw, Bind.bind, Except.bind]

/-- Explicit form of a successful `retry_task`. -/
lemma retry_task_found (s : Store) (now : PyDateTime) (id : String)
    (t0 : TaskRow) (w0 : Workbench)
    (ht : s.findTask id = some t0) (hw : s.findWorkbench id = some w0) :
    TaskService.retry_task s now id =
      .ok ((s.setTask { t0 with updated_at := now }).setWorkbench
             { w0 with enrichment_status := .pending, error_message := none,
                       updated_at := now },
           { t0 with updated_at := now },
           { w0 with enrichment_status := .pending, error_message := none,
                     updated_at := now }) := by
  simp [TaskService.retry_task, TaskService.get_by_id,
    TaskService.get_workbench_entry, ht, hw, Bind.bind, Except.bind]

/-- `update_enrichment` succeeds when both rows exist. -/
lemma update_enrichment_ok_of_found (s : Store) (now : PyDateTime) (id : String)
    (st : EnrichmentStatus) (et em : Option String)
    (ht : (s.findTask id).isSome) (hw : (s.findWorkbench id).isSome) :
    ∃ out, TaskService.update_enrichment s now id st et em = .ok out := by
  obtain ⟨t0, ht0⟩ := Option.isSome_iff_exists.mp ht
  obtain ⟨w0, hw0⟩ := Option.isSome_iff_exists.mp hw
  exact ⟨_, update_enrichment_found s now id st et em t0 w0 ht0 hw0⟩

/-- The failure handler on a store that still has the rows records the failed
status and the verbatim message on the workbench row. -/
lemma handler_records_failed (sb : Store) (now : PyDateTime) (id : String)
    (msg : String) (t0 : TaskRow) (w0 : Workbench)
    (ht : sb.findTask id = some t0) (hw : sb.findWorkbench id = some w0) :
    ∃ out : Store × TaskRow × Workbench,
      TaskService.update_enrichment sb now id .failed none (some msg) = .ok out ∧
      out.1.findWorkbench id =
        some { w0 with enrichment_status := .failed, error_message := some msg,
                       updated_at := now } := by
  refine ⟨_, update_enrichment_found sb now id .failed none (some msg) t0 w0 ht hw, ?_⟩
  exact findWorkbench_setWorkbench _ _ w0 _
    (by rw [findWorkbench_setTask]; exact hw) rfl

/-- The failure path of the pipeline: when the enrich or the extract step
raises, the run commits the processing-updated task row and a failed workbench
carrying the verbatim message. -/
lemma enrich_failure_run (fb : DateutilFallback) (now : PyDateTime) (s : Store)
    (id : String) (t0 : TaskRow) (w0 : Workbench)
    (eR : Except String String) (xR : Except String MetadataExtractionResponse)
    (msg : String)
    (ht : s.findTask id = some t0) (hw : s.findWorkbench id = some w0)
    (hfail : eR = .error msg ∨ (∃ e, eR = .ok e ∧ xR = .error msg)) :
    enrich_task_background fb now s id eR xR =
      .ok (((((s.setTask { t0 with enriched_text := none, updated_at := now }).setWorkbench
          { w0 with enrichment_status := .processing, error_message := none, updated_at := now }).setTask
          { t0 with enriched_text := none, updated_at := now }).setWorkbench
          { w0 with enrichment_status := .failed, error_message := some msg, updated_at := now })) := by
  have h1 : TaskService.get_by_id s id = .ok t0 := by
    simp [TaskService.get_by_id, ht]
  have h2 : TaskService.get_workbench_entry s id = .ok w0 := by
    simp [TaskService.get_workbench_entry, hw]
  have h3 := update_enrichment_found s now id .processing none none t0 w0 ht hw
  have ht1 : ((s.setTask { t0 with enriched_text := none, updated_at := now }).setWorkbench
      { w0 with enrichment_status := .processing, error_message := none, updated_at := now }).findTask id
      = some { t0 with enriched_text := none, updated_at := now } := by
    rw [findTask_setWorkbench]
    exact findTask_setTask s id t0 _ ht rfl
  have hw1 : ((s.setTask { t0 with enriched_text := none, updated_at := now }).setWorkbench
      { w0 with enrichment_status := .processing, error_message := none, updated_at := now }).findWorkbench id
      = some { w0 with enrichment_status := .processing, error_message := none, updated_at := now } := by
    exact findWorkbench_setWorkbench _ _ w0 _
      (by rw [findWorkbench_setTask]; exact hw) rfl
  have h4 := update_enrichment_found _ now id .failed none (some msg) _ _ ht1 hw1
  rcases hfail with hfe | he
  · subst hfe
    simp only [enrich_task_background, h1, h2, h3, h4, Except.mapError,
      Bind.bind, Except.bind]
  · obtain ⟨e, hok, hxe⟩ := he
    subst hok; subst hxe
    simp only [enrich_task_background, h1, h2, h3, h4, Except.mapError,
      Bind.bind, Except.bind]

/-! ## Dedup lemmas for the tag functions -/

lemma contains_iff_mem {α : Type} [BEq α] [LawfulBEq α] (l : List α) (x : α) :
    l.contains x = true ↔ x ∈ l := List.elem_iff

lemma dedupLowerTags_mem (l : List (List Char)) (seen : List (List Char))
    (x : List Char) :
    x ∈ dedupLowerTags l seen ↔ (x ∈ l.map pyLower ∧ x ∉ seen) := by
  induction l generalizing seen with
  | nil => simp [dedupLowerTags]
  | cons t rest ih =>
    by_cases hs : pyLower t ∈ seen
    · have hc : seen.contains (pyLower t) = true := (contains_iff_mem _ _).mpr hs
      simp only [dedupLowerTags, hc, if_true, ite_true, List.map_cons, List.mem_cons]
      rw [ih]
      constructor
      · rintro ⟨hm, hns⟩
        exact ⟨Or.inr hm, hns⟩
      · rintro ⟨hm | hm, hns⟩
        · subst hm
          exact absurd hs hns
        · exact ⟨hm, hns⟩
    · have hc : seen.contains (pyLower t) = false := by
        rw [Bool.eq_false_iff]
        intro hcc
        exact hs ((contains_iff_mem _ _).mp hcc)
      simp only [dedupLowerTags, hc]
      rw [if_neg (by simp)]
      by_cases hx : x = pyLower t
      · subst hx
        simp [hs]
      · simp only [List.map_cons, List.mem_cons, hx, false_or]
        rw [ih]
        simp [List.mem_cons, hx]

lemma dedupLowerTags_nodup (l : List (List Char)) (seen : List (List Char)) :
    (dedupLowerTags l seen).Nodup := by
  induction l generalizing seen with
  | nil => simp [dedupLowerTags]
  | cons t rest ih =>
    by_cases hs : pyLower t ∈ seen
    · have hc : seen.contains (pyLower t) = true := (contains_iff_mem _ _).mpr hs
      simp only [dedupLowerTags, hc, if_true, ite_true]
      exact ih seen
    · have hc : seen.contains (pyLower t) = false := by
        rw [Bool.eq_false_iff]
        intro hcc
        exact hs ((contains_iff_mem _ _).mp hcc)
      simp only [dedupLowerTags, hc]
      rw [if_neg (by simp)]
      refine List.nodup_cons.mpr ⟨?_, ih _⟩
      intro hmem
      have := (dedupLowerTags_mem rest (pyLower t :: seen) (pyLower t)).mp hmem
      exact this.2 (List.mem_cons_self _ _)

lemma dedupLowerTags_sublist (l : List (List Char)) (seen : List (List Char)) :
    List.Sublist (dedupLowerTags l seen) (l.map pyLower) := by
  induction l generalizing seen with
  | nil => simp [dedupLowerTags]
  | cons t rest ih =>
    by_cases hs : pyLower t ∈ seen
    · have hc : seen.contains (pyLower t) = true := (contains_iff_mem _ _).mpr hs
      simp only [dedupLowerTags, hc, if_true, ite_true, List.map_cons]
      exact (ih seen).cons _
    · have hc : seen.contains (pyLower t) = false := by
        rw [Bool.eq_false_iff]
        intro hcc
        exact hs ((contains_iff_mem _ _).mp hcc)
      simp only [dedupLowerTags, hc, List.map_cons]
      rw [if_neg (by simp)]
      exact (ih _).cons₂ _

/-- The source's dedup loop agrees with the first-seen fold, for any seen-set
and accumulator with the same members. -/
lemma dedupLowerTags_eq_fold :
    ∀ (l : List (List Char)) (acc seen : List (List Char)),
      (∀ x, x ∈ seen ↔ x ∈ acc) →
      acc ++ dedupLowerTags l seen =
        (l.map pyLower).foldl (fun a x => if a.contains x then a else a ++ [x]) acc := by
  intro l
  induction l with
  | nil =>
    intro acc seen _
    simp [dedupLowerTags]
  | cons t rest ih =>
    intro acc seen h
    by_cases hs : pyLower t ∈ seen
    · have hcSeen : seen.contains (pyLower t) = true := (contains_iff_mem _ _).mpr hs
      have hcAcc : acc.contains (pyLower t) = true :=
        (contains_iff_mem _ _).mpr ((h _).mp hs)
      simp only [dedupLowerTags, hcSeen, if_true, ite_true, List.map_cons,
        List.foldl_cons, hcAcc]
      exact ih acc seen h
    · have hcSeen : seen.contains (pyLower t) = false := by
        rw [Bool.eq_false_iff]
        intro hcc
        exact hs ((contains_iff_mem _ _).mp hcc)
      have hcAcc : acc.contains (pyLower t) = false := by
        rw [Bool.eq_false_iff]
        intro hcc
        exact hs ((h _).mpr ((contains_iff_mem _ _).mp hcc))
      simp only [dedupLowerTags, hcSeen, List.map_cons, List.foldl_cons, hcAcc]
      rw [if_neg (by simp), if_neg (by simp)]
      rw [show acc ++ pyLower t :: dedupLowerTags rest (pyLower t :: seen)
            = (acc ++ [pyLower t]) ++ dedupLowerTags rest (pyLower t :: seen) from by simp]
      refine ih (acc ++ [pyLower t]) (pyLower t :: seen) ?_
      intro x
      simp only [List.mem_cons, List.mem_append, List.mem_singleton, h x]
      tauto

/-- `extract_tags` IS the canonical first-seen dedup of the lowercased scanned
tokens (hence in first-seen order). -/
lemma extract_tags_eq_firstSeen (text : List Char) :
    extract_tags text = firstSeenDedup ((findHashtags text).map pyLower) := by
  unfold extract_tags firstSeenDedup
  split
  · rename_i hguard
    have htxt : text = [] := by simpa [pyTruthy] using hguard
    subst htxt
    simp [findHashtags, findHashtagsAux]
  · have hfold := dedupLowerTags_eq_fold (findHashtags text) [] [] (by simp)
    simpa using hfold

lemma dedupFirstSeen_mem (l : List String) (seen : List String) (x : String) :
    x ∈ dedupFirstSeen l seen ↔ (x ∈ l ∧ x ∉ seen) := by
  induction l generalizing seen with
  | nil => simp [dedupFirstSeen]
  | cons t rest ih =>
    by_cases hs : t ∈ seen
    · have hc : seen.contains t = true := (contains_iff_mem _ _).mpr hs
      simp only [dedupFirstSeen, hc, if_true, ite_true, List.mem_cons]
      rw [ih]
      constructor
      · rintro ⟨hm, hns⟩
        exact ⟨Or.inr hm, hns⟩
      · rintro ⟨hm | hm, hns⟩
        · subst hm
          exact absurd hs hns
        · exact ⟨hm, hns⟩
    · have hc : seen.contains t = false := by
        rw [Bool.eq_false_iff]
        intro hcc
        exact hs ((contains_iff_mem _ _).mp hcc)
      simp only [dedupFirstSeen, hc]
      rw [if_neg (by simp)]
      by_cases hx : x = t
      · subst hx
        simp [hs]
      · simp only [List.mem_cons, hx, false_or]
        rw [ih]
        simp [List.mem_cons, hx]

lemma pySetList_mem (l : List String) (x : String) :
    x ∈ pySetList l ↔ x ∈ l := by
  rw [pySetList, dedupFirstSeen_mem]
  simp

/-! ## apply_time default lemma -/

/-- When neither time regex matches, `_apply_time_if_present` returns the base
date at 23:59:59.000000. -/
lemma apply_time_eod (text : List Char) (b : PyDateTime)
    (h1 : findTime1 text = none) (h2 : findTime2 text = none) :
    apply_time_if_present text b =
      .ok { b with hour := 23, minute := 59, second := 59, microsecond := 0 } := by
  unfold apply_time_if_present
  rw [h1, h2]
  rfl

/-- Any match through the six pre-end-of-day relative branches routes the
result through `_apply_time_if_present` on some base datetime. -/
lemma parse_relative_branches (text : List Char) (ref : PyDateTime)
    (hn1 : text ≠ "today".data) (hn2 : text ≠ "now".data)
    (hbranch : pyContains text "tomorrow".data = true ∨
      pyContains text "yesterday".data = true ∨
      pyContains text "next week".data = true ∨
      pyContains text "this week".data = true ∨
      pyContains text "next month".data = true ∨
      (findIn text).isSome = true ∨ (firstWeekday text).isSome = true) :
    ∃ b : PyDateTime, parse_relative_date text ref =
      (apply_time_if_present text b).map some := by
  unfold parse_relative_date
  rw [if_neg (by rintro (h | h); exacts [hn1 h, hn2 h])]
  by_cases hb1 : pyContains text "tomorrow".data = true
  · rw [if_pos hb1]; exact ⟨_, rfl⟩
  · rw [if_neg hb1]
    by_cases hb2 : pyContains text "yesterday".data = true
    · rw [if_pos hb2]; exact ⟨_, rfl⟩
    · rw [if_neg hb2]
      by_cases hb3 : (pyContains text "next week".data = true ∨
          pyContains text "this week".data = true)
      · rw [if_pos hb3]; exact ⟨_, rfl⟩
      · rw [if_neg hb3]
        by_cases hb4 : pyContains text "next month".data = true
        · rw [if_pos hb4]; exact ⟨_, rfl⟩
        · rw [if_neg hb4]
          cases hfi : findIn text with
          | some cu => exact ⟨_, rfl⟩
          | none =>
            cases hfw : firstWeekday text with
            | some i => exact ⟨_, rfl⟩
            | none =>
              exfalso
              rcases hbranch with h | h | h | h | h | h | h
              · exact hb1 h
              · exact hb2 h
              · exact hb3 (Or.inl h)
              · exact hb3 (Or.inr h)
              · exact hb4 h
              · rw [hfi] at h; exact Bool.noConfusion h
              · rw [hfw] at h; exact Bool.noConfusion h

/-- The failure path also pins down the two rows of the final store. -/
lemma enrich_failure_finds (fb : DateutilFallback) (now : PyDateTime) (s : Store)
    (id : String) (t0 : TaskRow) (w0 : Workbench)
    (eR : Except String String) (xR : Except String MetadataExtractionResponse)
    (msg : String)
    (ht : s.findTask id = some t0) (hw : s.findWorkbench id = some w0)
    (hfail : eR = .error msg ∨ (∃ e, eR = .ok e ∧ xR = .error msg)) :
    ∃ s', enrich_task_background fb now s id eR xR = .ok s' ∧
      s'.findTask id = some { t0 with enriched_text := none, updated_at := now } ∧
      s'.findWorkbench id =
        some { w0 with enrichment_status := .failed, error_message := some msg,
                       updated_at := now } := by
  have ht1 : ((s.setTask { t0 with enriched_text := none, updated_at := now }).setWorkbench
      { w0 with enrichment_status := .processing, error_message := none, updated_at := now }).findTask id
      = some { t0 with enriched_text := none, updated_at := now } := by
    rw [findTask_setWorkbench]
    exact findTask_setTask s id t0 _ ht rfl
  have hw1 : ((s.setTask { t0 with enriched_text := none, updated_at := now }).setWorkbench
      { w0 with enrichment_status := .processing, error_message := none, updated_at := now }).findWorkbench id
      = some { w0 with enrichment_status := .processing, error_message := none, updated_at := now } := by
    exact findWorkbench_setWorkbench _ _ w0 _
      (by rw [findWorkbench_setTask]; exact hw) rfl
  refine ⟨_, enrich_failure_run fb now s id t0 w0 eR xR msg ht hw hfail, ?_, ?_⟩
  · rw [findTask_setWorkbench]
    exact findTask_setTask _ _ _ _ ht1 rfl
  · exact findWorkbench_setWorkbench _ _
      { w0 with enrichment_status := .processing, error_message := none, updated_at := now } _
      (by rw [findWorkbench_setTask]; exact hw1) rfl

/-! ## The claims -/

/-- Claim C1 (corrected): when the enrich step or the extract step raises, the
run ends with enrichment_status = failed, the error message stored verbatim,
and every metadata field of the task unchanged; but enriched_text is reset to
null by the unconditional assignment in update_enrichment (at the processing
transition and again on the failure write), rather than keeping its pre-run
value. -/
theorem C1_failure_frame (fb : DateutilFallback) (now : PyDateTime) (s : Store)
    (id : String) (t0 : TaskRow) (w0 : Workbench)
    (eR : Except String String) (xR : Except String MetadataExtractionResponse)
    (msg : String)
    (ht : s.findTask id = some t0) (hw : s.findWorkbench id = some w0)
    (hfail : eR = .error msg ∨ (∃ e, eR = .ok e ∧ xR = .error msg)) :
    ∃ s' t' w', enrich_task_background fb now s id eR xR = .ok s' ∧
      s'.findTask id = some t' ∧ s'.findWorkbench id = some w' ∧
      w'.enrichment_status = .failed ∧ w'.error_message = some msg ∧
      t'.project = t0.project ∧ t'.persons = t0.persons ∧
      t'.task_type = t0.task_type ∧ t'.priority = t0.priority ∧
      t'.deadline_text = t0.deadline_text ∧
      t'.deadline_parsed = t0.deadline_parsed ∧
      t'.effort_estimate = t0.effort_estimate ∧
      t'.dependencies = t0.dependencies ∧ t'.tags = t0.tags ∧
      t'.extracted_at = t0.extracted_at ∧
      t'.requires_attention = t0.requires_attention ∧
      t'.enriched_text = none := by
  obtain ⟨s', hrun, hft, hfw⟩ :=
    enrich_failure_finds fb now s id t0 w0 eR xR msg ht hw hfail
  exact ⟨s', _, _, hrun, hft, hfw, rfl, rfl, rfl, rfl, rfl, rfl, rfl, rfl,
    rfl, rfl, rfl, rfl, rfl, rfl⟩

theorem C1_witness :
    ∃ s' t' w',
      enrich_task_background fallbackNone sampleNow sampleStore "t1"
        (.error "Enrichment failed: boom") (.error "unused") = .ok s' ∧
      s'.findTask "t1" = some t' ∧ s'.findWorkbench "t1" = some w' ∧
      w'.enrichment_status = .failed ∧
      w'.error_message = some "Enrichment failed: boom" ∧
      t'.project = sampleTask.project ∧ t'.persons = sampleTask.persons ∧
      t'.task_type = sampleTask.task_type ∧ t'.priority = sampleTask.priority ∧
      t'.deadline_text = sampleTask.deadline_text ∧
      t'.deadline_parsed = sampleTask.deadline_parsed ∧
      t'.effort_estimate = sampleTask.effort_estimate ∧
      t'.dependencies = sampleTask.dependencies ∧ t'.tags = sampleTask.tags ∧
      t'.extracted_at = sampleTask.extracted_at ∧
      t'.requires_attention = sampleTask.requires_attention ∧
      t'.enriched_text = none :=
  C1_failure_frame fallbackNone sampleNow sampleStore "t1" sampleTask
    sampleWorkbench (.error "Enrichment failed: boom") (.error "unused")
    "Enrichment failed: boom" (by decide) (by decide) (Or.inl rfl)

theorem C1_counterexample :
    (sampleStore.findTask "t1").map TaskRow.enriched_text =
      some (some "old enriched") ∧
    ((enrich_task_background fallbackNone sampleNow sampleStore "t1"
        (.error "Enrichment failed: boom") (.error "unused")).toOption.bind
      (fun s => s.findTask "t1")).map TaskRow.enriched_text = some none := by
  refine ⟨by decide, by decide⟩

/-- When the task and workbench rows exist, `enrich_task_background` always
returns without raising, whatever the enrich/extract outcomes. -/
lemma pipeline_no_escape (fb : DateutilFallback) (now : PyDateTime) (s : Store) (id : String)
    (t0 : TaskRow) (w0 : Workbench)
    (eR : Except String String) (xR : Except String MetadataExtractionResponse)
    (ht : s.findTask id = some t0) (hw : s.findWorkbench id = some w0) :
    ∃ s', enrich_task_background fb now s id eR xR = .ok s' := by
  cases eR with
  | error m =>
    exact ⟨_, enrich_failure_run fb now s id t0 w0 _ xR m ht hw (Or.inl rfl)⟩
  | ok e =>
    cases xR with
    | error m =>
      exact ⟨_, enrich_failure_run fb now s id t0 w0 _ _ m ht hw
        (Or.inr ⟨e, rfl, rfl⟩)⟩
    | ok meta =>
      have h1 : TaskService.get_by_id s id = .ok t0 := by
        simp [TaskService.get_by_id, ht]
      have h2 : TaskService.get_workbench_entry s id = .ok w0 := by
        simp [TaskService.get_workbench_entry, hw]
      have h3 := update_enrichment_found s now id .processing none none t0 w0 ht hw
      have ht1 : ((s.setTask { t0 with enriched_text := none, updated_at := now }).setWorkbench
          { w0 with enrichment_status := .processing, error_message := none, updated_at := now }).findTask id
          = some { t0 with enriched_text := none, updated_at := now } := by
        rw [findTask_setWorkbench]
        exact findTask_setTask s id t0 _ ht rfl
      have hw1 : ((s.setTask { t0 with enriched_text := none, updated_at := now }).setWorkbench
          { w0 with enrichment_status := .processing, error_message := none, updated_at := now }).findWorkbench id
          = some { w0 with enrichment_status := .processing, error_message := none, updated_at := now } := by
        exact findWorkbench_setWorkbench _ _ w0 _
          (by rw [findWorkbench_setTask]; exact hw) rfl
      have hfin : ∀ (tX : TaskRow) (wX : Workbench) (st : EnrichmentStatus)
          (et em : Option String),
          ∃ out, TaskService.update_enrichment
            ((((s.setTask { t0 with enriched_text := none, updated_at := now }).setWorkbench
              { w0 with enrichment_status := .processing, error_message := none, updated_at := now }).setTask
              tX).setWorkbench wX) now id st et em = .ok out := by
        intro tX wX st et em
        apply update_enrichment_ok_of_found
        · rw [findTask_setWorkbench, findTask_setTask_cases _ _ _ _ ht1]
          rfl
        · rw [findWorkbench_setWorkbench_cases _ _ _ _
            (show (((s.setTask { t0 with enriched_text := none, updated_at := now }).setWorkbench
              { w0 with enrichment_status := .processing, error_message := none, updated_at := now }).setTask
              tX).findWorkbench id
              = some { w0 with enrichment_status := .processing, error_message := none, updated_at := now }
              from hw1)]
          rfl
      simp only [enrich_task_background, h1, h2, h3, Except.mapError,
        Bind.bind, Except.bind]
      by_cases hd : EnrichmentService.should_populate_field meta.deadline_confidence = true
      · by_cases hf : pyFalsyOptStr meta.deadline = true
        · simp only [hd, hf, if_true, not_true, Bool.false_eq_true, if_false,
            ite_true, ite_false, Pure.pure, Except.pure]
          obtain ⟨⟨o1, o2, o3⟩, hu⟩ := hfin _ _ .completed (some e) none
          exact ⟨o1, by rw [hu]⟩
        · cases hp : EnrichmentService.parse_deadline_from_text fb meta.deadline now with
          | error pm =>
            simp only [hd, hf, if_true, not_false_iff, Bool.not_eq_true, hp,
              Except.mapError, Bind.bind, Except.bind, if_false, ite_true, ite_false,
              Pure.pure, Except.pure]
            obtain ⟨⟨o1, o2, o3⟩, hu⟩ := hfin _ _ .failed none (some pm)
            exact ⟨o1, by rw [hu]⟩
          | ok popt =>
            simp only [hd, hf, if_true, not_false_iff, Bool.not_eq_true, hp,
              Except.mapError, Bind.bind, Except.bind, if_false, ite_true, ite_false,
              Pure.pure, Except.pure]
            obtain ⟨⟨o1, o2, o3⟩, hu⟩ := hfin _ _ .completed (some e) none
            exact ⟨o1, by rw [hu]⟩
      · simp only [hd, if_false, ite_false, ite_true, Bool.false_eq_true,
          Pure.pure, Except.pure]
        obtain ⟨⟨o1, o2, o3⟩, hu⟩ := hfin _ _ .completed (some e) none
        exact ⟨o1, by rw [hu]⟩

/-- Claim C2 (corrected): whenever the task and its workbench entry exist, any
exception raised during the pipeline — from the enrich step, the extract step,
or the deadline parse inside the field-population block — is caught inside
enrich_task_background and converted into enrichment_status = failed with the
exception's message recorded verbatim as error_message, and no exception
propagates to the caller. (When the rows are missing, the failure handler
itself raises — see the counterexample.) -/
theorem C2_exceptions_recorded (fb : DateutilFallback) (now : PyDateTime)
    (s : Store) (id : String) (t0 : TaskRow) (w0 : Workbench)
    (eR : Except String String) (xR : Except String MetadataExtractionResponse)
    (ht : s.findTask id = some t0) (hw : s.findWorkbench id = some w0) :
    (∃ s', enrich_task_background fb now s id eR xR = .ok s') ∧
    (∀ msg : String,
      (eR = .error msg ∨
       (∃ e, eR = .ok e ∧ xR = .error msg) ∨
       (∃ e meta, eR = .ok e ∧ xR = .ok meta ∧
         EnrichmentService.should_populate_field meta.deadline_confidence = true ∧
         pyFalsyOptStr meta.deadline = false ∧
         EnrichmentService.parse_deadline_from_text fb meta.deadline now =
           .error msg)) →
      ∃ s' w', enrich_task_background fb now s id eR xR = .ok s' ∧
        s'.findWorkbench id = some w' ∧
        w'.enrichment_status = .failed ∧ w'.error_message = some msg) := by
  refine ⟨pipeline_no_escape fb now s id t0 w0 eR xR ht hw, ?_⟩
  intro msg hfail
  rcases hfail with hfe | ⟨e, hok, hxe⟩ | ⟨e, meta, hok, hxok, hd, hfalsy, hp⟩
  · obtain ⟨s', hrun, _, hfw⟩ :=
      enrich_failure_finds fb now s id t0 w0 eR xR msg ht hw (Or.inl hfe)
    exact ⟨s', _, hrun, hfw, rfl, rfl⟩
  · obtain ⟨s', hrun, _, hfw⟩ :=
      enrich_failure_finds fb now s id t0 w0 eR xR msg ht hw (Or.inr ⟨e, hok, hxe⟩)
    exact ⟨s', _, hrun, hfw, rfl, rfl⟩
  · subst hok; subst hxok
    have h1 : TaskService.get_by_id s id = .ok t0 := by
      simp [TaskService.get_by_id, ht]
    have h2 : TaskService.get_workbench_entry s id = .ok w0 := by
      simp [TaskService.get_workbench_entry, hw]
    have h3 := update_enrichment_found s now id .processing none none t0 w0 ht hw
    have ht1 : ((s.setTask { t0 with enriched_text := none, updated_at := now }).setWorkbench
        { w0 with enrichment_status := .processing, error_message := none, updated_at := now }).findTask id
        = some { t0 with enriched_text := none, updated_at := now } := by
      rw [findTask_setWorkbench]
      exact findTask_setTask s id t0 _ ht rfl
    have hw1 : ((s.setTask { t0 with enriched_text := none, updated_at := now }).setWorkbench
        { w0 with enrichment_status := .processing, error_message := none, updated_at := now }).findWorkbench id
        = some { w0 with enrichment_status := .processing, error_message := none, updated_at := now } := by
      exact findWorkbench_setWorkbench _ _ w0 _
        (by rw [findWorkbench_setTask]; exact hw) rfl
    have hfneg : ¬ pyFalsyOptStr meta.deadline = true := by simp [hfalsy]
    simp only [enrich_task_background, h1, h2, h3, Except.mapError,
      Bind.bind, Except.bind]
    simp only [hd, hfneg, if_true, not_false_iff, Bool.not_eq_true, hp,
      Except.mapError, Bind.bind, Except.bind, if_false, ite_true, ite_false,
      Pure.pure, Except.pure]
    have hfin2 : ∀ (tX : TaskRow) (wX : Workbench), wX.task_id = w0.task_id →
        ∃ out : Store × TaskRow × Workbench,
          TaskService.update_enrichment
            ((((s.setTask { t0 with enriched_text := none, updated_at := now }).setWorkbench
              { w0 with enrichment_status := .processing, error_message := none, updated_at := now }).setTask
              tX).setWorkbench wX) now id .failed none (some msg) = .ok out ∧
          out.1.findWorkbench id =
            some { wX with enrichment_status := .failed, error_message := some msg,
                           updated_at := now } := by
      intro tX wX hwid
      have htS : ((((s.setTask { t0 with enriched_text := none, updated_at := now }).setWorkbench
          { w0 with enrichment_status := .processing, error_message := none, updated_at := now }).setTask
          tX).setWorkbench wX).findTask id
          = some (if tX.id = ({ t0 with enriched_text := none, updated_at := now } : TaskRow).id
                  then tX else { t0 with enriched_text := none, updated_at := now }) := by
        rw [findTask_setWorkbench]
        exact findTask_setTask_cases _ id _ tX ht1
      have hwS : ((((s.setTask { t0 with enriched_text := none, updated_at := now }).setWorkbench
          { w0 with enrichment_status := .processing, error_message := none, updated_at := now }).setTask
          tX).setWorkbench wX).findWorkbench id = some wX := by
        exact findWorkbench_setWorkbench _ _
          { w0 with enrichment_status := .processing, error_message := none, updated_at := now } _
          (by rw [findWorkbench_setTask]; exact hw1) hwid
      exact handler_records_failed _ now id msg _ _ htS hwS
    obtain ⟨⟨o1, o2, o3⟩, hu, hfw2⟩ := hfin2 _
      { w0 with enrichment_status := .processing, error_message := none,
                metadata_suggestions :=
                  some (EnrichmentService.serialize_metadata_suggestions meta),
                updated_at := now } rfl
    exact ⟨o1, _, by rw [hu], hfw2, rfl, rfl⟩

theorem C2_witness :
    (∃ s', enrich_task_background fallbackNone sampleNow sampleStore "t1"
      (.error "Enrichment failed: boom") (.ok c6resp) = .ok s') ∧
    (∃ s' w', enrich_task_background fallbackNone sampleNow sampleStore "t1"
        (.error "Enrichment failed: boom") (.ok c6resp) = .ok s' ∧
      s'.findWorkbench "t1" = some w' ∧
      w'.enrichment_status = .failed ∧
      w'.error_message = some "Enrichment failed: boom") :=
  have H := C2_exceptions_recorded fallbackNone sampleNow sampleStore "t1"
    sampleTask sampleWorkbench (.error "Enrichment failed: boom") (.ok c6resp)
    (by decide) (by decide)
  ⟨H.1, H.2 "Enrichment failed: boom" (Or.inl rfl)⟩

theorem C2_counterexample :
    enrich_task_background fallbackNone sampleNow emptyStore "missing"
      (.ok "x") (.error "y") = .error "Task missing not found" := by
  decide

/-- Claim C3 (code bug): a retryable rate-limited provider failure surfaces
directly out of `enrich_task`, classified is_retryable with a 60s retry-after
hint, because `_retry_with_exponential_backoff` is never applied to the call;
the unused decorator itself would have slept [60, 60, 60] before surfacing the
error after max_retries = 3 retries. -/
theorem C3_code_bug_eval :
    GeminiClient.enrich_task "call mom" (.error "Rate limit exceeded, try again later") =
      .error (.gemini rateLimitError) ∧
    rateLimitError.is_retryable = true ∧
    (retry_with_exponential_backoff 3 1
      (fun _ => (.error rateLimitError : Except GeminiAPIError String))).2 = [60, 60, 60] := by
  refine ⟨by decide, by decide, ?_⟩
  simp only [retry_with_exponential_backoff, retryGo, rateLimitError]
  norm_num

/-- Claim C4 (code bug): `parse_deadline` is not total — on the phrase
"tomorrow at 99:99" the relative branch reaches `datetime.replace` with
hour = 99 and the resulting ValueError propagates out of the parser instead of
yielding null. -/
theorem C4_code_bug_eval :
    parse_deadline fallbackNone (some "tomorrow at 99:99".data) c10ref =
      .error "hour must be in 0..23" := by
  decide

/-- Claim C5 (confirmed): for every confidence value c, both implementations of
should_populate_field return true exactly when c >= 0.7, and the boundary value
0.7 itself populates in both. -/
theorem C5_should_populate_iff :
    (∀ c : ℚ,
      (EnrichmentService.should_populate_field c = true ↔ c ≥ 7/10) ∧
      (MetadataExtractor.should_populate_field c = true ↔ c ≥ 7/10)) ∧
    EnrichmentService.should_populate_field (7/10) = true ∧
    MetadataExtractor.should_populate_field (7/10) = true := by
  refine ⟨fun c => ⟨?_, ?_⟩, ?_, ?_⟩
  · simp [EnrichmentService.should_populate_field, EnrichmentService.confidence_threshold]
  · simp [MetadataExtractor.should_populate_field, MetadataExtractor.CONFIDENCE_THRESHOLD]
  · simp [EnrichmentService.should_populate_field, EnrichmentService.confidence_threshold]
  · simp [MetadataExtractor.should_populate_field, MetadataExtractor.CONFIDENCE_THRESHOLD]

/-- Claim C6 (corrected): EnrichmentService.requires_attention is true exactly
when the project is absent (None or empty) or its confidence is below 0.7; but
MetadataExtractor.requires_attention instead is true exactly when any of the
four confidences (project, persons, task_type, priority) is below 0.7,
ignoring project presence — so other fields' confidences do affect that
implementation's outcome. -/
theorem C6_requires_attention_rules :
    (∀ r : MetadataExtractionResponse,
      EnrichmentService.requires_attention r = true ↔
        (r.project = none ∨ r.project = some "" ∨ r.project_confidence < 7/10)) ∧
    (∀ r : MetadataExtractionResponse,
      MetadataExtractor.requires_attention r = true ↔
        (r.project_confidence < 7/10 ∨ r.persons_confidence < 7/10 ∨
         r.task_type_confidence < 7/10 ∨ r.priority_confidence < 7/10)) := by
  constructor
  · intro r
    rw [EnrichmentService.requires_attention]
    cases hp : r.project with
    | none => simp [pyFalsyOptStr, EnrichmentService.confidence_threshold]
    | some p =>
      by_cases he : p = ""
      · subst he
        simp [pyFalsyOptStr, EnrichmentService.confidence_threshold]
      · simp [pyFalsyOptStr, he, EnrichmentService.confidence_threshold]
  · intro r
    rw [MetadataExtractor.requires_attention]
    simp [MetadataExtractor.CONFIDENCE_THRESHOLD, or_assoc]

theorem C6_counterexample :
    MetadataExtractor.requires_attention c6resp = true ∧
    c6resp.project = some "ProjX" ∧
    (7/10 : ℚ) ≤ c6resp.project_confidence ∧
    EnrichmentService.requires_attention c6resp = false := by
  refine ⟨?_, rfl, ?_, ?_⟩
  · norm_num [MetadataExtractor.requires_attention,
      MetadataExtractor.CONFIDENCE_THRESHOLD, c6resp]
  · norm_num [c6resp]
  · norm_num [EnrichmentService.requires_attention,
      EnrichmentService.confidence_threshold, pyFalsyOptStr, c6resp]
    decide

/-- Claim C7 (corrected): retry_task resets enrichment_status to pending and
clears error_message, and leaves every metadata field unchanged — including
extracted_at, which is NOT cleared (contrary to the claim). -/
theorem C7_retry_frame (s : Store) (now : PyDateTime) (id : String)
    (t0 : TaskRow) (w0 : Workbench)
    (ht : s.findTask id = some t0) (hw : s.findWorkbench id = some w0) :
    ∃ s' t' w', TaskService.retry_task s now id = .ok (s', t', w') ∧
      w'.enrichment_status = .pending ∧ w'.error_message = none ∧
      t'.enriched_text = t0.enriched_text ∧
      t'.project = t0.project ∧ t'.persons = t0.persons ∧
      t'.task_type = t0.task_type ∧ t'.priority = t0.priority ∧
      t'.deadline_text = t0.deadline_text ∧
      t'.deadline_parsed = t0.deadline_parsed ∧
      t'.effort_estimate = t0.effort_estimate ∧
      t'.dependencies = t0.dependencies ∧ t'.tags = t0.tags ∧
      t'.extracted_at = t0.extracted_at ∧
      t'.requires_attention = t0.requires_attention := by
  exact ⟨_, _, _, retry_task_found s now id t0 w0 ht hw, rfl, rfl, rfl, rfl,
    rfl, rfl, rfl, rfl, rfl, rfl, rfl, rfl, rfl, rfl⟩

theorem C7_witness :
    ∃ s' t' w', TaskService.retry_task sampleStore sampleNow "t1" = .ok (s', t', w') ∧
      w'.enrichment_status = .pending ∧ w'.error_message = none ∧
      t'.enriched_text = sampleTask.enriched_text ∧
      t'.project = sampleTask.project ∧ t'.persons = sampleTask.persons ∧
      t'.task_type = sampleTask.task_type ∧ t'.priority = sampleTask.priority ∧
      t'.deadline_text = sampleTask.deadline_text ∧
      t'.deadline_parsed = sampleTask.deadline_parsed ∧
      t'.effort_estimate = sampleTask.effort_estimate ∧
      t'.dependencies = sampleTask.dependencies ∧ t'.tags = sampleTask.tags ∧
      t'.extracted_at = sampleTask.extracted_at ∧
      t'.requires_attention = sampleTask.requires_attention :=
  C7_retry_frame sampleStore sampleNow "t1" sampleTask sampleWorkbench
    (by decide) (by decide)

theorem C7_counterexample :
    ((TaskService.retry_task sampleStore sampleNow "t1").toOption.map
      (fun out => out.2.1.extracted_at)) = some (some sampleDate) ∧
    (some sampleDate : Option PyDateTime) ≠ none := by
  refine ⟨by decide, by decide⟩

/-- Claim C8 (corrected): extract_tags returns hashtag tokens lowercased,
deduplicated case-insensitively, in first-seen order — it equals the canonical
first-seen deduplication `firstSeenDedup` of the lowercased scanned tokens, and
in particular the spec's example yields exactly ["bug"]; but the orchestrator's
union with the LLM tags is `list(set(...))`, which deduplicates only exact
(case-sensitive) duplicates: its elements are exactly the scanned tokens
together with the LLM tags. -/
theorem C8_tag_extraction :
    extract_tags ("#Bug fix the #bug".data) = ["bug".data] ∧
    (∀ text : List Char,
      extract_tags text = firstSeenDedup ((findHashtags text).map pyLower)) ∧
    (∀ text : List Char, (extract_tags text).Nodup) ∧
    (∀ (text x : List Char),
      x ∈ extract_tags text ↔ x ∈ (findHashtags text).map pyLower) ∧
    (∀ text : List Char,
      List.Sublist (extract_tags text) ((findHashtags text).map pyLower)) ∧
    (∀ (orig : String) (llm : List String) (x : String),
      x ∈ MetadataExtractor.all_tags orig llm ↔
        x ∈ (extract_tags orig.data).map List.asString ∨ x ∈ llm) := by
  refine ⟨by decide, extract_tags_eq_firstSeen, ?_, ?_, ?_, ?_⟩
  · intro text
    unfold extract_tags
    split
    · simp
    · exact dedupLowerTags_nodup _ _
  · intro text x
    unfold extract_tags
    split
    · rename_i hguard
      have htxt : text = [] := by
        simpa [pyTruthy] using hguard
      subst htxt
      simp [findHashtags, findHashtagsAux]
    · rw [dedupLowerTags_mem]
      simp
  · intro text
    unfold extract_tags
    split
    · simp
    · exact dedupLowerTags_sublist _ _
  · intro orig llm x
    rw [MetadataExtractor.all_tags, pySetList_mem, List.mem_append]

theorem C8_counterexample :
    "bug" ∈ MetadataExtractor.all_tags "#Bug fix the #bug" ["Bug"] ∧
    "Bug" ∈ MetadataExtractor.all_tags "#Bug fix the #bug" ["Bug"] ∧
    "bug" ≠ "Bug" := by
  refine ⟨by decide, by decide, by decide⟩

/-- Claim C9 (confirmed): every successful update_enrichment call stores its
enriched_text argument on the task unconditionally, so a call that omits the
argument (the processing and failed transitions) sets enriched_text to null,
erasing any value stored by an earlier completed run. -/
theorem C9_update_enrichment_overwrites (s : Store) (now : PyDateTime)
    (id : String) (st : EnrichmentStatus) (et em : Option String)
    (s' : Store) (t' : TaskRow) (w' : Workbench)
    (h : TaskService.update_enrichment s now id st et em = .ok (s', t', w')) :
    t'.enriched_text = et ∧ s'.findTask id = some t' := by
  cases hft : s.findTask id with
  | none =>
    rw [TaskService.update_enrichment] at h
    simp [TaskService.get_by_id, hft, Bind.bind, Except.bind] at h
  | some u =>
    cases hfw : s.findWorkbench id with
    | none =>
      rw [TaskService.update_enrichment] at h
      simp [TaskService.get_by_id, TaskService.get_workbench_entry, hft, hfw,
        Bind.bind, Except.bind] at h
    | some v =>
      rw [update_enrichment_found s now id st et em u v hft hfw] at h
      injection h with h2
      rw [Prod.mk.injEq, Prod.mk.injEq] at h2
      obtain ⟨h3, h4, h5⟩ := h2
      subst h3; subst h4; subst h5
      refine ⟨rfl, ?_⟩
      rw [findTask_setWorkbench]
      exact findTask_setTask s id u _ hft rfl

theorem C9_witness :
    c9task.enriched_text = none ∧ c9store.findTask "t1" = some c9task :=
  C9_update_enrichment_overwrites sampleStore sampleNow "t1" .failed none none
    c9store c9task c9wb (by decide)

/-- Claim C10 (confirmed): a phrase matched by any relative branch other than
exactly "today"/"now" and the end-of-day/week/month forms, containing no
time-of-day pattern, parses to a timestamp whose time component is 23:59:59
(microsecond 0). -/
theorem C10_relative_end_of_day (text : List Char) (ref d : PyDateTime)
    (hn1 : text ≠ "today".data) (hn2 : text ≠ "now".data)
    (hbranch : pyContains text "tomorrow".data = true ∨
      pyContains text "yesterday".data = true ∨
      pyContains text "next week".data = true ∨
      pyContains text "this week".data = true ∨
      pyContains text "next month".data = true ∨
      (findIn text).isSome = true ∨ (firstWeekday text).isSome = true)
    (h1 : findTime1 text = none) (h2 : findTime2 text = none)
    (hres : parse_relative_date text ref = .ok (some d)) :
    d.hour = 23 ∧ d.minute = 59 ∧ d.second = 59 ∧ d.microsecond = 0 := by
  obtain ⟨b, hb⟩ := parse_relative_branches text ref hn1 hn2 hbranch
  rw [hb, apply_time_eod text b h1 h2] at hres
  simp only [Except.map] at hres
  injection hres with h3
  injection h3 with h4
  subst h4
  exact ⟨rfl, rfl, rfl, rfl⟩



theorem C10_witness :
    (⟨2025, 10, 13, 23, 59, 59, 0⟩ : PyDateTime).hour = 23 ∧
    (⟨2025, 10, 13, 23, 59, 59, 0⟩ : PyDateTime).minute = 59 ∧
    (⟨2025, 10, 13, 23, 59, 59, 0⟩ : PyDateTime).second = 59 ∧
    (⟨2025, 10, 13, 23, 59, 59, 0⟩ : PyDateTime).microsecond = 0 :=
  C10_relative_end_of_day "tomorrow".data c10ref _
    (by decide) (by decide) (Or.inl (by decide)) (by decide) (by decide)
    (by decide)

